import Mathlib

/-!
Verification of the PartyQuiz repository (Sommema4/PartyQuiz).

This file shallowly embeds the core logic of the three Python source files
(`generate_google_slides.py`, `llm_interface.py`, `grammar_check.py`) as
executable Lean definitions and proves or refutes the frozen claims about
them.  Python `str.strip` is modelled by `pyStrip`, rows are `List String`,
machine integers do not occur (all counts are small naturals / JSON integers
are modelled as `Int`), and the external JSON deserialiser (`json.loads`) is
a function parameter `loads : String → Option Json`, `none` standing for a
raised `JSONDecodeError`.
-/

namespace PartyQuiz

/-- Python whitespace characters recognised by `str.strip` / regex `\s`
(ASCII range; the sources only ever deal with these). -/
def isPySpace (c : Char) : Bool :=
  c = ' ' || c = '\t' || c = '\n' || c = '\r' || c = '\x0b' || c = '\x0c'

/-- Python `str.strip()`: drop leading and trailing whitespace. -/
def pyStrip (s : String) : String :=
  String.mk (((s.toList.dropWhile isPySpace).reverse.dropWhile isPySpace).reverse)

/-! ## Row model parser — `parse_quiz` in `generate_google_slides.py` -/

/-- A question as built by `parse_quiz`: first three cells, each trimmed. -/
structure Question where
  question : String
  answer : String
  notes : String
  deriving DecidableEq, Repr

/-- A topic: name (trimmed first cell of the topic row) plus its questions. -/
structure Topic where
  topic_name : String
  questions : List Question
  deriving DecidableEq, Repr

/-- `question = row[0].strip() if len(row) > 0 else ''` and so on for
`answer` (index 1) and `notes` (index 2). -/
def qOfRow (row : List String) : Question :=
  { question := pyStrip (row.getD 0 "")
    answer := pyStrip (row.getD 1 "")
    notes := pyStrip (row.getD 2 "") }

/-- The optional open topic appended at the end (Python appends the topic
dict to `topics` on creation and mutates it afterwards; functionally the
open topic joins the closed ones when it is replaced or at the end). -/
def optTopic : Option Topic → List Topic
  | none => []
  | some t => [t]

/-- The `while i < len(data)` loop of `parse_quiz`.  `closed` holds the
topics already replaced, `cur` the currently open topic.  A row is skipped
when it is empty or its first cell strips to `""`; `is_topic` is true iff a
next row exists and that next row is a non-empty list; a new topic actually
starts only when additionally no topic is open or the open one already has
at least 6 questions; otherwise the row is a question for the open topic. -/
def parseLoop : List Topic → Option Topic → List (List String) → List Topic
  | closed, cur, [] => closed ++ optTopic cur
  | closed, cur, row :: rest =>
    match row with
    | [] => parseLoop closed cur rest
    | c0 :: _ =>
      if pyStrip c0 = "" then parseLoop closed cur rest
      else
        let is_topic : Bool := match rest with
          | [] => false
          | nr :: _ => !nr.isEmpty
        if is_topic &&
            (cur.isNone || (match cur with
              | some t => decide (6 ≤ t.questions.length)
              | none => false)) then
          parseLoop (closed ++ optTopic cur) (some ⟨pyStrip c0, []⟩) rest
        else
          match cur with
          | none => parseLoop closed none rest
          | some t =>
            let q := qOfRow row
            if q.question ≠ "" then
              parseLoop closed (some ⟨t.topic_name, t.questions ++ [q]⟩) rest
            else
              parseLoop closed cur rest

/-- `parse_quiz(data)`: returns `[]` when `len(data) < 2`, else runs the
loop from index 1 (header row skipped). -/
def parse_quiz (data : List (List String)) : List Topic :=
  if data.length < 2 then [] else parseLoop [] none (data.drop 1)

/-! ## Slide content mapper — `add_content_to_slides` in
`generate_google_slides.py` -/

/-- Python `re.sub` of the pattern `^\d+[\.\)]\s*` by the empty string in
`topic_name`: remove a leading run of one
or more digits followed by `.` or `)` and any whitespace.  The character
classes `\d`, `[.)]`, `\s` are pairwise disjoint, so the greedy match is the
plain take-while below. -/
def stripLeadNum (s : String) : String :=
  let cs := s.toList
  let ds := cs.takeWhile Char.isDigit
  if ds.isEmpty then s
  else
    match cs.drop ds.length with
    | [] => s
    | p :: rest =>
      if p = '.' || p = ')' then String.mk (rest.dropWhile isPySpace) else s

/-- The cleaned topic name: the `re.sub` above followed by `.strip()`. -/
def cleanTopicName (topic_name : String) : String :=
  pyStrip (stripLeadNum topic_name)

/-- Python `re.match` of the pattern `^([T\d]+[\.\)])\s*` against
`question_text`: on success returns
`(group(1), text[len(group(0)):])`, i.e. the numbering token including its
`.`/`)` and the text after the token and its trailing whitespace. -/
def splitQuestion (question_text : String) : Option (String × String) :=
  let cs := question_text.toList
  let tk := cs.takeWhile (fun c => c = 'T' || c.isDigit)
  if tk.isEmpty then none
  else
    match cs.drop tk.length with
    | [] => none
    | p :: rest =>
      if p = '.' || p = ')' then
        some (String.mk (tk ++ [p]), String.mk (rest.dropWhile isPySpace))
      else none

/-- The per-question title/body derivation inside the slide loop:
`slide_title` and `question_without_number` for a topic name already
cleaned to `cleanT`. -/
def titleBody (cleanT : String) (question_text : String) : String × String :=
  match splitQuestion question_text with
  | some (tok, rem) => (tok ++ " " ++ cleanT, pyStrip rem)
  | none => (cleanT, question_text)

/-- `mapSlide` of the specification: title/body for one (topic, question)
pair, cleaning the topic name and splitting the numbering token. -/
def mapSlide (topic_name question_text : String) : String × String :=
  titleBody (cleanTopicName topic_name) question_text

/-- One `insertText` request: target placeholder object id and inserted
text (the insertion index is always 0 in the source). -/
structure InsertReq where
  objectId : String
  text : String
  deriving DecidableEq, Repr

/-- The inner per-question loop of
`add_content_to_slides`.  A slide is a list of page-element object ids;
`idx` is `slide_idx`.  The loop breaks when `slide_idx >= len(slides)`,
emits title/body requests only when the slide has at least two page
elements, and always advances `slide_idx`. -/
def goQuestions (slides : List (List String)) (cleanT : String) :
    Nat → List Question → List InsertReq × Nat
  | idx, [] => ([], idx)
  | idx, q :: qs =>
    if slides.length ≤ idx then ([], idx)
    else
      let tb := titleBody cleanT q.question
      let elems := slides.getD idx []
      let reqs :=
        if 2 ≤ elems.length then
          [⟨elems.getD 0 "", tb.1⟩, ⟨elems.getD 1 "", tb.2⟩]
        else []
      let next := goQuestions slides cleanT (idx + 1) qs
      (reqs ++ next.1, next.2)

/-- The outer `for topic in topics_data` loop of `add_content_to_slides`:
clean the topic name once, run the question loop, thread `slide_idx`. -/
def goTopics (slides : List (List String)) :
    Nat → List Topic → List InsertReq × Nat
  | idx, [] => ([], idx)
  | idx, t :: ts =>
    let r1 := goQuestions slides (cleanTopicName t.topic_name) idx t.questions
    let r2 := goTopics slides r1.2 ts
    (r1.1 ++ r2.1, r2.2)

/-- `add_content_to_slides` reduced to its pure content: the list of
`insertText` requests produced for a presentation whose slides expose the
given page-element ids. -/
def add_content_to_slides (slides : List (List String)) (topics_data : List Topic) :
    List InsertReq :=
  (goTopics slides 0 topics_data).1

/-- All (topic name, question) pairs in topic-major, question-minor order. -/
def flatQs (ts : List Topic) : List (String × Question) :=
  ts.flatMap fun t => t.questions.map fun q => (t.topic_name, q)

/-- Modelled from the claim/spec wording for C6: pair questions with slides
in order and emit a title and a body insertion for each paired question;
questions beyond the available slides are dropped. -/
def specInsertions : List (String × Question) → List (List String) → List InsertReq
  | [], _ => []
  | _, [] => []
  | (tn, q) :: qs, elems :: ss =>
    let tb := mapSlide tn q.question
    ⟨elems.getD 0 "", tb.1⟩ :: ⟨elems.getD 1 "", tb.2⟩ :: specInsertions qs ss

/-! ## LLM verdict normalizers — `llm_interface.py`

`json.loads` is an external library collaborator; it is passed in as
`loads : String → Option Json`, with `none` standing for a raised
`JSONDecodeError`.  JSON numbers are modelled as `Int` (every number in the
claims is an integer).  The exact wording of Python exception messages is
library-internal and is modelled by fixed descriptive strings. -/

/-- A JSON value as produced by `json.loads`. -/
inductive Json where
  | null
  | bool (b : Bool)
  | num (n : Int)
  | str (s : String)
  | arr (xs : List Json)
  | obj (kvs : List (String × Json))
  deriving Repr

/-- Dict lookup (`result.get(k)` / `k in result`): first matching key. -/
def objGet (kvs : List (String × Json)) (k : String) : Option Json :=
  match kvs with
  | [] => none
  | (k', v) :: rest => if k' = k then some v else objGet rest k

/-- Dict assignment `result[k] = v`: replace the value of the first
occurrence of `k`, or append the pair (Python dicts keep insertion order
and an assignment to a fresh key appends). -/
def objSet (kvs : List (String × Json)) (k : String) (v : Json) :
    List (String × Json) :=
  match kvs with
  | [] => [(k, v)]
  | (k', v') :: rest =>
    if k' = k then (k, v) :: rest else (k', v') :: objSet rest k v

/-- Lookup on a `Json` value that is expected to be an object. -/
def jGet (j : Json) (k : String) : Option Json :=
  match j with
  | .obj kvs => objGet kvs k
  | _ => none

/-- The fenced-block extraction shared by both checkers:
take the text between the first fence pair labelled json (splitting on the
label and taking the piece before the next plain fence, then stripping it)
when the labelled fence occurs, else the same with the plain fence, else
the raw content.  Python splitting on a non-empty separator is
`String.splitOn`. -/
def extractFenced (content : String) : String :=
  let p := content.splitOn "```json"
  if 2 ≤ p.length then pyStrip (((p.getD 1 "").splitOn "```").headD "")
  else
    let q := content.splitOn "```"
    if 2 ≤ q.length then pyStrip (((q.getD 1 "").splitOn "```").headD "")
    else content

/-- A raw completion payload as seen by the checkers: the message dict
returned by `ask` (with its `content` field when present — the content of
a chat completion is text), the error string `ask` returns on a non-200
response, or any other non-dict value. -/
inductive Payload where
  | pyStr (s : String)
  | dict (content : Option String)
  | other
  deriving Repr

/-- The fallback verdict of `check_czech_grammar`. -/
def grammarErr (msg : String) : Json :=
  .obj [("has_errors", .bool false), ("corrections", .arr []),
        ("confidence", .num 0), ("error", .str msg)]

/-- `check_czech_grammar` after the `ask` call: extract fenced text from a
dict payload that has a `content` key and parse it, returning the parsed
value as-is; any other payload shape yields the `Invalid response format`
verdict and a parse failure yields the `Could not parse LLM response`
verdict (the `except json.JSONDecodeError` branch). -/
def check_czech_grammar (loads : String → Option Json) (response : Payload) :
    Json :=
  match response with
  | .dict (some content) =>
    match loads (extractFenced content) with
    | some result => result
    | none => grammarErr "Could not parse LLM response"
  | _ => grammarErr "Invalid response format"

/-- The fallback verdict of `check_answer_correctness`. -/
def answerErr (msg : String) : Json :=
  .obj [("is_correct", .bool false), ("confidence", .num 0),
        ("explanation", .str msg)]

/-- Python `s[:100]`. -/
def pyTake100 (s : String) : String := String.mk (s.toList.take 100)

/-- The confidence floor test, reading the confidence key with default 0
and comparing it with 80: a boolean
compares as its integer value (Python `bool` is an `int`); comparing
`None`, a string, a list or a dict with `80` raises `TypeError`, which the
enclosing `except Exception` catches. -/
def confBelow80 (kvs : List (String × Json)) : Except String Bool :=
  match objGet kvs "confidence" with
  | none => .ok (decide ((0 : Int) < 80))
  | some (.num n) => .ok (decide (n < 80))
  | some (.bool b) => .ok (decide ((if b then (1 : Int) else 0) < 80))
  | some _ => .error "TypeError comparing confidence with int"

/-- `check_answer_correctness` after the `ask` call.  A string payload is
the error message of `ask` and becomes the explanation; a non-dict payload and
an empty/missing content short-circuit; otherwise the fenced text is
extracted and parsed, and on success the confidence floor is applied:
below 80 the `is_correct` key is set to `False` and, when an `explanation`
key exists, the marker `" (Nízká jistota LLM)"` is appended to it.  Every
exception inside the `try` is caught (`JSONDecodeError` and the catch-all
`Exception`), so the function always returns a dict. -/
def check_answer_correctness (loads : String → Option Json)
    (response : Payload) : Json :=
  match response with
  | .pyStr s => answerErr s
  | .other => answerErr "Unexpected response type: <non-dict>"
  | .dict contentOpt =>
    let content := contentOpt.getD ""
    if content = "" then answerErr "Empty response content"
    else
      let c := extractFenced content
      match loads c with
      | none =>
        answerErr ("JSON parse error: <decode error>. Content: " ++ pyTake100 c)
      | some result =>
        match result with
        | .obj kvs =>
          match confBelow80 kvs with
          | .error e => answerErr ("Unexpected error: " ++ e)
          | .ok false => .obj kvs
          | .ok true =>
            let kvs1 := objSet kvs "is_correct" (.bool false)
            match objGet kvs1 "explanation" with
            | none => .obj kvs1
            | some (.str e) =>
              .obj (objSet kvs1 "explanation" (.str (e ++ " (Nízká jistota LLM)")))
            | some _ =>
              answerErr "Unexpected error: TypeError appending to explanation"
        | _ => answerErr "Unexpected error: AttributeError on parsed value"

/-! ## Quiz checking pass and report aggregator —
`check_quiz_with_llm` / `save_llm_check_results` in
`generate_google_slides.py`

Verdict dicts are modelled by structures whose fields reflect the `.get`
accesses the consumers perform: `has_errors` is the truthiness of
the read of the has_errors key (default falsy); `confidence` is the read
of the confidence key with default 0. -/

/-- One `{original, corrected}` pair of a grammar verdict; the consumers
read both fields with the empty string as default. -/
structure CorrPair where
  original : String
  corrected : String
  deriving DecidableEq, Repr

/-- A grammar verdict as consumed by the scripts. -/
structure GVerdict where
  has_errors : Bool
  corrections : List CorrPair
  confidence : Int
  error : Option String
  deriving DecidableEq, Repr

/-- An answer verdict as consumed by the report aggregator. -/
structure AVerdict where
  is_correct : Bool
  confidence : Int
  explanation : Option String
  deriving DecidableEq, Repr

/-- A question after the checking pass: the grammar and answer entries of
its `llm_checks` dict, when present. -/
structure AnnQuestion where
  question : String
  answer : String
  notes : String
  grammar : Option GVerdict
  answerCheck : Option AVerdict
  deriving DecidableEq, Repr

/-- A topic whose questions carry check annotations. -/
structure AnnTopic where
  topic_name : String
  questions : List AnnQuestion
  deriving DecidableEq, Repr

/-- `check_quiz_with_llm` with the two LLM calls as oracles: every question
gets a grammar verdict; an answer verdict is attached only when
the answer field and its stripped form are both truthy, and the
answer is checked against itself. -/
def check_quiz_with_llm (gOracle : String → GVerdict)
    (aOracle : String → String → String → AVerdict)
    (topics : List Topic) : List AnnTopic :=
  topics.map fun t =>
    { topic_name := t.topic_name
      questions := t.questions.map fun q =>
        { question := q.question
          answer := q.answer
          notes := q.notes
          grammar := some (gOracle q.question)
          answerCheck :=
            if q.answer ≠ "" ∧ pyStrip q.answer ≠ "" then
              some (aOracle q.question q.answer q.answer)
            else none } }

/-- The three counters accumulated by the report loop in
`save_llm_check_results`: `total_questions`, `grammar_issues`
(the grammar verdict has a truthy has_errors), `answer_issues`
(the answer verdict has confidence below 80, default 0). -/
def questionTally (acc : Nat × Nat × Nat) (q : AnnQuestion) : Nat × Nat × Nat :=
  (acc.1 + 1,
   acc.2.1 + (match q.grammar with
     | some g => if g.has_errors then 1 else 0
     | none => 0),
   acc.2.2 + (match q.answerCheck with
     | some a => if a.confidence < 80 then 1 else 0
     | none => 0))

/-- The nested report loop of `save_llm_check_results`, reduced to its
summary counts `(total_questions, grammar_issues, answer_issues)`. -/
def summaryCounts (topics : List AnnTopic) : Nat × Nat × Nat :=
  topics.foldl (fun acc t => t.questions.foldl questionTally acc) (0, 0, 0)

/-- All annotated questions in visit order. -/
def allQuestions (topics : List AnnTopic) : List AnnQuestion :=
  topics.flatMap (·.questions)

/-! ## Grammar check collection — `check_grammar_and_collect_corrections`
in `grammar_check.py` -/

/-- One entry of the `corrections` list collected per checked row. -/
structure CorrectionEntry where
  row : Nat
  original : String
  corrected : String
  confidence : Int
  has_errors : Bool
  deriving DecidableEq, Repr

/-- Apply every `{original, corrected}` pair in order:
`corrected_text = corrected_text.replace(original, corrected)` whenever
both strings are non-empty (`if original and corrected`). -/
def applyCorrections (question_text : String) (cs : List CorrPair) : String :=
  cs.foldl
    (fun acc c =>
      if c.original ≠ "" ∧ c.corrected ≠ "" then
        acc.replace c.original c.corrected
      else acc)
    question_text

/-- The per-row entry appended by `check_grammar_and_collect_corrections`
for a checked row at sheet index `idx` with trimmed text `qt`. -/
def entryForRow (idx : Nat) (qt : String) (g : GVerdict) : CorrectionEntry :=
  if g.has_errors then
    if g.corrections ≠ [] then
      ⟨idx, qt, applyCorrections qt g.corrections, g.confidence, true⟩
    else
      ⟨idx, qt,
        "[LLM detekoval chyby ale neposkytl opravu - jistota: "
          ++ toString g.confidence ++ "%]",
        g.confidence, true⟩
  else ⟨idx, qt, qt, g.confidence, false⟩

/-- The `for idx, row in enumerate(data[1:], start=2)` loop: skip rows that
are empty or whose first cell strips to the empty string, otherwise check
the trimmed first cell and append exactly one entry. -/
def collectGo (gOracle : String → GVerdict) :
    Nat → List (List String) → List CorrectionEntry
  | _, [] => []
  | idx, row :: rest =>
    match row with
    | [] => collectGo gOracle (idx + 1) rest
    | c0 :: _ =>
      if pyStrip c0 = "" then collectGo gOracle (idx + 1) rest
      else
        entryForRow idx (pyStrip c0) (gOracle (pyStrip c0))
          :: collectGo gOracle (idx + 1) rest

/-- `check_grammar_and_collect_corrections(data, llm)`: the header row
(index 0) is skipped and sheet row numbers start at 2. -/
def check_grammar_and_collect_corrections (data : List (List String))
    (gOracle : String → GVerdict) : List CorrectionEntry :=
  collectGo gOracle 2 (data.drop 1)

/-! ## Claims about the row model parser -/

/-- The concrete table of claim C1: header, one topic row, eight
question-shaped rows. -/
def demoTableC1 : List (List String) :=
  [["H"], ["T"], ["Q1"], ["Q2"], ["Q3"], ["Q4"], ["Q5"], ["Q6"], ["Q7"], ["Q8"]]

/-- Claim C1, counterexample: on a table of 1 header row, 1 topic row and 8
question-shaped rows, the second topic returned by `parse_quiz` holds 1
question, not the 2 the claim asserts: the 7th question-shaped row is
consumed as the name of the new topic, so only the 8th row remains to be
accumulated as a question. -/
theorem parse_eight_rows_counterexample :
    ((parse_quiz demoTableC1).getD 1 ⟨"", []⟩).questions.length = 1 ∧
    ((parse_quiz demoTableC1).getD 1 ⟨"", []⟩).questions.length ≠ 2 := by
  constructor
  · rfl
  · decide

/-- Claim C1 (amended): for a table of 1 header row, 1 topic row and 8
consecutive non-empty question-shaped rows, `parse_quiz` returns a first
topic holding exactly the first 6 question rows, and a second topic opened
at the 7th question-shaped row — whose trimmed first cell becomes the new
name of the new topic — which accumulates only the remaining 1 question. -/
theorem parse_eight_rows_topic_split (hdr : List String)
    (t0 c1 c2 c3 c4 c5 c6 c7 c8 : String)
    (tt s1 s2 s3 s4 s5 s6 s7 s8 : List String)
    (ht : pyStrip t0 ≠ "") (h1 : pyStrip c1 ≠ "") (h2 : pyStrip c2 ≠ "")
    (h3 : pyStrip c3 ≠ "") (h4 : pyStrip c4 ≠ "") (h5 : pyStrip c5 ≠ "")
    (h6 : pyStrip c6 ≠ "") (h7 : pyStrip c7 ≠ "") (h8 : pyStrip c8 ≠ "") :
    parse_quiz [hdr, t0 :: tt, c1 :: s1, c2 :: s2, c3 :: s3, c4 :: s4,
        c5 :: s5, c6 :: s6, c7 :: s7, c8 :: s8] =
      [⟨pyStrip t0,
        [qOfRow (c1 :: s1), qOfRow (c2 :: s2), qOfRow (c3 :: s3),
         qOfRow (c4 :: s4), qOfRow (c5 :: s5), qOfRow (c6 :: s6)]⟩,
       ⟨pyStrip c7, [qOfRow (c8 :: s8)]⟩] := by
  have q1 : (qOfRow (c1 :: s1)).question ≠ "" := h1
  have q2 : (qOfRow (c2 :: s2)).question ≠ "" := h2
  have q3 : (qOfRow (c3 :: s3)).question ≠ "" := h3
  have q4 : (qOfRow (c4 :: s4)).question ≠ "" := h4
  have q5 : (qOfRow (c5 :: s5)).question ≠ "" := h5
  have q6 : (qOfRow (c6 :: s6)).question ≠ "" := h6
  have q8 : (qOfRow (c8 :: s8)).question ≠ "" := h8
  simp [parse_quiz, parseLoop, optTopic, ht, h1, h2, h3, h4, h5, h6, h7, h8,
    q1, q2, q3, q4, q5, q6, q8]

/-- Witness for the amended theorem of C1 at a concrete table. -/
theorem parse_eight_rows_topic_split_witness :
    parse_quiz demoTableC1 =
      [⟨"T", [⟨"Q1", "", ""⟩, ⟨"Q2", "", ""⟩, ⟨"Q3", "", ""⟩, ⟨"Q4", "", ""⟩,
        ⟨"Q5", "", ""⟩, ⟨"Q6", "", ""⟩]⟩, ⟨"Q7", [⟨"Q8", "", ""⟩]⟩] := by
  have := parse_eight_rows_topic_split ["H"] "T" "Q1" "Q2" "Q3" "Q4" "Q5"
    "Q6" "Q7" "Q8" [] [] [] [] [] [] [] [] []
    (by decide) (by decide) (by decide) (by decide) (by decide) (by decide)
    (by decide) (by decide) (by decide)
  simpa [demoTableC1, qOfRow, pyStrip, isPySpace] using this

/-- Claim C2, counterexample: a non-empty last row arriving with no open
topic does not start a topic — `parse_quiz` on a header plus a single
non-empty row returns no topic at all, not a topic named `X` with zero
questions. -/
theorem parse_last_row_no_topic_counterexample :
    parse_quiz [["H"], ["X"]] = [] := by
  decide

/-- Claim C2 (amended): a non-empty row that is the very last row of the
table and arrives when no topic is currently open is dropped: the
lookahead (`i + 1 < len(data)`) fails on the last row, so the row is not
topic-eligible, and with no open topic it is not recorded as a question
either — the parse result is exactly the topics closed so far. -/
theorem parse_last_row_no_topic (closed : List Topic) (c0 : String)
    (tl : List String) (hc : pyStrip c0 ≠ "") :
    parseLoop closed none [c0 :: tl] = closed := by
  simp [parseLoop, optTopic, hc]

/-- Witness for the amended theorem of C2. -/
theorem parse_last_row_no_topic_witness :
    pyStrip "X" ≠ "" ∧ parseLoop [] none [["X"]] = [] :=
  ⟨by decide, parse_last_row_no_topic [] "X" [] (by decide)⟩

/-- Claim C7: a row that is empty or whose first cell is whitespace-only is
skipped by the parse loop: it is never emitted as a topic, never appended
as a question, and the closed topics and the currently open topic are
unchanged — the loop continues on the remaining rows from the same state. -/
theorem parse_skips_blank_rows (closed : List Topic) (cur : Option Topic)
    (row : List String) (rest : List (List String))
    (h : row = [] ∨ pyStrip (row.headD "") = "") :
    parseLoop closed cur (row :: rest) = parseLoop closed cur rest := by
  rcases h with h | h
  · subst h
    rfl
  · cases row with
    | nil => rfl
    | cons c0 tl =>
      simp only [List.headD] at h
      simp [parseLoop, h]

/-- Witness for C7 at a whitespace-only row. -/
theorem parse_skips_blank_rows_witness :
    ((([" "] : List String) = []) ∨ pyStrip (([" "] : List String).headD "") = "") ∧
      parseLoop [] (some ⟨"T", []⟩) [[" "], ["Q"]] =
        parseLoop [] (some ⟨"T", []⟩) [["Q"]] :=
  ⟨Or.inr (by decide),
   parse_skips_blank_rows [] (some ⟨"T", []⟩) [" "] [["Q"]] (Or.inr (by decide))⟩

/-- The concrete table of claim C9: header, topic row, seven question rows;
the 7th question row is the final row of the table. -/
def demoTableC9 : List (List String) :=
  [["H"], ["T"], ["Q1"], ["Q2"], ["Q3"], ["Q4"], ["Q5"], ["Q6"], ["Q7"]]

/-- Claim C9: when the open topic already holds at least 6 questions and
the next non-empty question-shaped row is the final row of the table, the
parser appends that row to the open topic as a question (the last row is
never topic-eligible), so the topic ends with 7 or more questions; hence
"at most 6 questions per topic" is not an invariant of `parse_quiz`, as
the concrete table with one topic row and seven question rows shows. -/
theorem parse_final_row_joins_full_topic
    (closed : List Topic) (t : Topic) (c0 : String) (tl : List String)
    (hfull : 6 ≤ t.questions.length) (hc : pyStrip c0 ≠ "") :
    parseLoop closed (some t) [c0 :: tl] =
        closed ++ [⟨t.topic_name, t.questions ++ [qOfRow (c0 :: tl)]⟩] ∧
      7 ≤ (t.questions ++ [qOfRow (c0 :: tl)]).length ∧
      ((parse_quiz demoTableC9).getD 0 ⟨"", []⟩).questions.length = 7 := by
  refine ⟨?_, ?_, ?_⟩
  · have hq : (qOfRow (c0 :: tl)).question ≠ "" := hc
    simp [parseLoop, optTopic, hc, hq]
  · simp
    omega
  · rfl

/-- Witness for C9 at a concrete full topic and final row. -/
theorem parse_final_row_joins_full_topic_witness :
    6 ≤ ([⟨"a", "", ""⟩, ⟨"b", "", ""⟩, ⟨"c", "", ""⟩, ⟨"d", "", ""⟩,
        ⟨"e", "", ""⟩, ⟨"f", "", ""⟩] : List Question).length ∧
      parseLoop [] (some ⟨"T", [⟨"a", "", ""⟩, ⟨"b", "", ""⟩, ⟨"c", "", ""⟩,
          ⟨"d", "", ""⟩, ⟨"e", "", ""⟩, ⟨"f", "", ""⟩]⟩) [["Q7"]] =
        [⟨"T", [⟨"a", "", ""⟩, ⟨"b", "", ""⟩, ⟨"c", "", ""⟩, ⟨"d", "", ""⟩,
          ⟨"e", "", ""⟩, ⟨"f", "", ""⟩, qOfRow [["Q7"].headD ""]]⟩] := by
  have h := parse_final_row_joins_full_topic [] ⟨"T", [⟨"a", "", ""⟩,
    ⟨"b", "", ""⟩, ⟨"c", "", ""⟩, ⟨"d", "", ""⟩, ⟨"e", "", ""⟩,
    ⟨"f", "", ""⟩]⟩ "Q7" [] (by decide) (by decide)
  exact ⟨by decide, by simpa using h.1⟩

/-! ## Claims about the slide content mapper -/

/-- Every list is its `takeWhile` prefix followed by the drop of that
length of that prefix. -/
theorem takeWhile_append_drop_length {α : Type} (q : α → Bool) :
    ∀ cs : List α, cs = cs.takeWhile q ++ cs.drop (cs.takeWhile q).length := by
  intro cs
  induction cs with
  | nil => rfl
  | cons c cs ih =>
    by_cases h : q c
    · simpa [List.takeWhile_cons, h] using ih
    · simp [List.takeWhile_cons, h]

/-- Claim C5: `mapSlide` strips a leading `<digits><. or )><whitespace>`
token from the topic name; when the question text starts with a token of
one or more `T`-or-digit characters followed by `.` or `)` (and optional
whitespace), the title is that token, a space, and the cleaned topic and
the body is the trimmed remainder, and the match really decomposes the
text that way; with no such token the title is the cleaned topic and the
body the unchanged question text.  Both concrete cases of the claim hold. -/
theorem mapSlide_numbering :
    (∀ tn qt, splitQuestion qt = none → mapSlide tn qt = (cleanTopicName tn, qt)) ∧
    (∀ tn qt tok rem, splitQuestion qt = some (tok, rem) →
      mapSlide tn qt = (tok ++ " " ++ cleanTopicName tn, pyStrip rem)) ∧
    (∀ qt tok rem, splitQuestion qt = some (tok, rem) →
      ∃ tk p ws rs, qt.toList = tk ++ p :: (ws ++ rs) ∧ tk ≠ [] ∧
        (∀ c ∈ tk, c = 'T' ∨ c.isDigit) ∧ (p = '.' ∨ p = ')') ∧
        (∀ c ∈ ws, isPySpace c) ∧
        tok = String.mk (tk ++ [p]) ∧ rem = String.mk rs) ∧
    mapSlide "2. History" "3) What year?" = ("3) History", "What year?") ∧
    mapSlide "History" "What year?" = ("History", "What year?") := by
  refine ⟨?_, ?_, ?_, by decide, by decide⟩
  · intro tn qt h
    simp [mapSlide, titleBody, h]
  · intro tn qt tok rem h
    simp [mapSlide, titleBody, h]
  · intro qt tok rem h
    unfold splitQuestion at h
    set cs := qt.toList with hcs
    set tk := cs.takeWhile (fun c => c = 'T' || c.isDigit) with htk
    by_cases he : tk.isEmpty
    · simp [htk.symm ▸ he] at h
    · simp only [htk.symm ▸ he, Bool.false_eq_true, if_false] at h
      rcases hd : cs.drop tk.length with _ | ⟨p, rest⟩
      · rw [hd] at h
        simp at h
      · rw [hd] at h
        by_cases hp : p = '.' || p = ')'
        · simp only [hp, if_true] at h
          refine ⟨tk, p, rest.takeWhile isPySpace, rest.dropWhile isPySpace,
            ?_, ?_, ?_, ?_, ?_, ?_, ?_⟩
          · conv_lhs => rw [takeWhile_append_drop_length
              (fun c => c = 'T' || c.isDigit) cs]
            rw [← htk, hd, List.takeWhile_append_dropWhile]
          · simpa [List.isEmpty_iff] using he
          · intro c hc
            have := List.mem_takeWhile_imp (htk ▸ hc)
            simpa using this
          · simpa using hp
          · intro c hc
            exact List.mem_takeWhile_imp hc
          · have h' := h
            simp only [Option.some.injEq, Prod.mk.injEq] at h'
            exact h'.1.symm
          · have h' := h
            simp only [Option.some.injEq, Prod.mk.injEq] at h'
            exact h'.2.symm
        · simp [hp] at h

/-- Witness for C5: both conditional branches applied at concrete inputs. -/
theorem mapSlide_numbering_witness :
    (splitQuestion "T1) bonus" = some ("T1)", "bonus") ∧
      mapSlide "7. Věda" "T1) bonus" = ("T1) Věda", "bonus")) ∧
    (splitQuestion "plain" = none ∧
      mapSlide "7. Věda" "plain" = ("Věda", "plain")) := by
  constructor
  · refine ⟨by decide, ?_⟩
    have := mapSlide_numbering.2.1 "7. Věda" "T1) bonus" "T1)" "bonus"
      (by decide)
    simpa using this
  · refine ⟨by decide, ?_⟩
    have := mapSlide_numbering.1 "7. Věda" "plain" (by decide)
    simpa using this

/-! ## Claim C6: silent truncation of text insertion -/

theorem specInsertions_nil_right (qs : List (String × Question)) :
    specInsertions qs [] = [] := by
  cases qs <;> rfl

theorem specInsertions_append (a b : List (String × Question)) :
    ∀ ss : List (List String),
      specInsertions (a ++ b) ss =
        specInsertions a ss ++ specInsertions b (ss.drop a.length) := by
  induction a with
  | nil => intro ss; simp [specInsertions]
  | cons x a ih =>
    intro ss
    cases ss with
    | nil => simp [specInsertions_nil_right]
    | cons e ss' =>
      obtain ⟨tn, q⟩ := x
      simp [specInsertions, ih ss']

theorem specInsertions_length (qs : List (String × Question)) :
    ∀ ss : List (List String),
      (specInsertions qs ss).length = 2 * min qs.length ss.length := by
  induction qs with
  | nil => intro ss; simp [specInsertions]
  | cons x qs ih =>
    intro ss
    cases ss with
    | nil => simp [specInsertions_nil_right]
    | cons e ss' =>
      obtain ⟨tn, q⟩ := x
      simp [specInsertions, ih ss']
      omega

/-- Dropping `idx + min q (len - idx)` elements is the same as dropping
`idx + q`: once the list is exhausted both drops yield `[]`. -/
theorem drop_add_min {α : Type} (l : List α) (idx q : Nat) :
    l.drop (idx + min q (l.length - idx)) = l.drop (idx + q) := by
  rcases le_or_lt q (l.length - idx) with h | h
  · rw [min_eq_left h]
  · rw [List.drop_eq_nil_of_le (by omega), List.drop_eq_nil_of_le (by omega)]

/-- The inner question loop is the spec insertion over the remaining
slides, and the final `slide_idx` is the start index advanced by the
number of questions actually visited. -/
theorem goQuestions_spec (slides : List (List String)) (tn : String)
    (h2 : ∀ s ∈ slides, 2 ≤ s.length) :
    ∀ (qs : List Question) (idx : Nat),
      (goQuestions slides (cleanTopicName tn) idx qs).1 =
          specInsertions (qs.map fun q => (tn, q)) (slides.drop idx) ∧
        (goQuestions slides (cleanTopicName tn) idx qs).2 =
          idx + min qs.length (slides.length - idx) := by
  intro qs
  induction qs with
  | nil => intro idx; simp [goQuestions, specInsertions]
  | cons q qs ih =>
    intro idx
    by_cases hidx : slides.length ≤ idx
    · rw [List.drop_eq_nil_of_le hidx]
      simp [goQuestions, hidx, specInsertions_nil_right]
    · push_neg at hidx
      have hdrop : slides.drop idx = slides[idx] :: slides.drop (idx + 1) :=
        List.drop_eq_getElem_cons hidx
      have helems : slides.getD idx [] = slides[idx] :=
        List.getD_eq_getElem slides [] hidx
      have hlen : 2 ≤ (slides[idx]).length :=
        h2 _ (List.getElem_mem hidx)
      have hnle : ¬ slides.length ≤ idx := by omega
      obtain ⟨ih1, ih2⟩ := ih (idx + 1)
      constructor
      · rw [hdrop]
        simp only [goQuestions, hnle, if_false, List.map_cons, specInsertions,
          helems, hlen, if_pos (by omega : 2 ≤ (slides[idx]).length)]
        simp [ih1, mapSlide]
      · simp only [goQuestions, hnle, if_false]
        simp [ih2]
        omega

/-- The outer topic loop is the spec insertion over the flattened
(topic, question) pairs. -/
theorem goTopics_spec (slides : List (List String))
    (h2 : ∀ s ∈ slides, 2 ≤ s.length) :
    ∀ (ts : List Topic) (idx : Nat),
      (goTopics slides idx ts).1 =
          specInsertions (flatQs ts) (slides.drop idx) ∧
        (goTopics slides idx ts).2 =
          idx + min (flatQs ts).length (slides.length - idx) := by
  intro ts
  induction ts with
  | nil => intro idx; simp [goTopics, flatQs, specInsertions]
  | cons t ts ih =>
    intro idx
    obtain ⟨g1, g2⟩ := goQuestions_spec slides t.topic_name h2 t.questions idx
    obtain ⟨i1, i2⟩ := ih (goQuestions slides (cleanTopicName t.topic_name)
      idx t.questions).2
    have hflat : flatQs (t :: ts) =
        (t.questions.map fun q => (t.topic_name, q)) ++ flatQs ts := by
      simp [flatQs]
    constructor
    · simp only [goTopics, hflat, specInsertions_append, List.length_map]
      rw [g1, i1, g2, drop_add_min, ← List.drop_drop]
    · simp only [goTopics, hflat, List.length_append, List.length_map]
      rw [i2, g2]
      omega

/-- Claim C6: when a presentation has fewer slide placeholders (each with
at least two placeholder regions) than there are questions, text insertion
silently truncates: the emitted `insertText` requests are exactly the
title/body pairs of the first `len(slides)` questions in topic-major,
question-minor order, paired with the slides in order, and every question
beyond that count produces no request; in particular twice
`min(questions, slides)` requests are emitted. -/
theorem add_content_truncates (slides : List (List String))
    (topics_data : List Topic) (h2 : ∀ s ∈ slides, 2 ≤ s.length) :
    add_content_to_slides slides topics_data =
        specInsertions (flatQs topics_data) slides ∧
      (add_content_to_slides slides topics_data).length =
        2 * min (flatQs topics_data).length slides.length := by
  have h := (goTopics_spec slides h2 topics_data 0).1
  simp only [List.drop_zero] at h
  have h' : add_content_to_slides slides topics_data =
      specInsertions (flatQs topics_data) slides := h
  exact ⟨h', by rw [h', specInsertions_length]⟩

/-- Witness for C6: two slide placeholders, one topic with three
questions — only the first two questions receive their title/body
insertions, the third is dropped. -/
theorem add_content_truncates_witness :
    (∀ s ∈ ([["a0", "a1"], ["b0", "b1"]] : List (List String)), 2 ≤ s.length) ∧
      add_content_to_slides [["a0", "a1"], ["b0", "b1"]]
          [⟨"T", [⟨"1) x", "", ""⟩, ⟨"2) y", "", ""⟩, ⟨"3) z", "", ""⟩]⟩] =
        [⟨"a0", "1) T"⟩, ⟨"a1", "x"⟩, ⟨"b0", "2) T"⟩, ⟨"b1", "y"⟩] := by
  have h := add_content_truncates [["a0", "a1"], ["b0", "b1"]]
    [⟨"T", [⟨"1) x", "", ""⟩, ⟨"2) y", "", ""⟩, ⟨"3) z", "", ""⟩]⟩]
    (by decide)
  exact ⟨by decide, by rw [h.1]; decide⟩

/-! ## Claim C8: report aggregator summary counts -/

/-- A question counted as a grammar issue: its grammar verdict is present
with a truthy `has_errors`. -/
def hasGrammarIssue (q : AnnQuestion) : Bool :=
  match q.grammar with
  | some g => g.has_errors
  | none => false

/-- A question counted as an answer issue: its answer verdict is present
with confidence below 80. -/
def hasAnswerIssue (q : AnnQuestion) : Bool :=
  match q.answerCheck with
  | some a => decide (a.confidence < 80)
  | none => false

theorem foldl_questionTally (qs : List AnnQuestion) :
    ∀ a b c : Nat,
      qs.foldl questionTally (a, b, c) =
        (a + qs.length, b + qs.countP hasGrammarIssue,
          c + qs.countP hasAnswerIssue) := by
  induction qs with
  | nil => intro a b c; simp
  | cons q qs ih =>
    intro a b c
    obtain ⟨qq, qa, qn, qg, qac⟩ := q
    rcases qg with _ | g <;> rcases qac with _ | av <;>
      simp only [List.foldl_cons, questionTally, ih, List.length_cons,
        List.countP_cons, hasGrammarIssue, hasAnswerIssue, Prod.mk.injEq,
        decide_eq_true_eq] <;>
      refine ⟨by omega, ?_, ?_⟩ <;> split_ifs <;> first | omega | simp_all

theorem summaryCounts_eq (topics : List AnnTopic) :
    ∀ init : Nat × Nat × Nat,
      topics.foldl (fun acc t => t.questions.foldl questionTally acc) init =
        (init.1 + (allQuestions topics).length,
          init.2.1 + (allQuestions topics).countP hasGrammarIssue,
          init.2.2 + (allQuestions topics).countP hasAnswerIssue) := by
  induction topics with
  | nil => intro init; simp [allQuestions]
  | cons t ts ih =>
    intro init
    obtain ⟨a, b, c⟩ := init
    have hall : allQuestions (t :: ts) = t.questions ++ allQuestions ts := by
      simp [allQuestions]
    simp only [List.foldl_cons, foldl_questionTally, ih, hall,
      List.length_append, List.countP_append]
    refine Prod.ext ?_ (Prod.ext ?_ ?_) <;> simp <;> omega

/-- In the output of `check_quiz_with_llm`, an answer verdict is attached
only to questions whose answer field is non-empty. -/
theorem checkQuiz_answer_attached (gOracle : String → GVerdict)
    (aOracle : String → String → String → AVerdict) (topics : List Topic) :
    ∀ q ∈ allQuestions (check_quiz_with_llm gOracle aOracle topics),
      q.answerCheck.isSome → q.answer ≠ "" := by
  intro q hq hsome
  simp only [allQuestions, check_quiz_with_llm, List.mem_flatMap,
    List.mem_map] at hq
  obtain ⟨t, ⟨t0, _, rfl⟩, hq⟩ := hq
  simp only [List.mem_map] at hq
  obtain ⟨q0, _, rfl⟩ := hq
  simp only at hsome ⊢
  by_cases hcond : q0.answer ≠ "" ∧ pyStrip q0.answer ≠ ""
  · exact hcond.1
  · simp [hcond] at hsome

/-- Claim C8: for every annotated topic tree the summary counters of the
report aggregator satisfy `total` = number of questions visited,
`grammarIssues` = number of questions whose grammar verdict has
`has_errors` true, `answerIssues` = number of questions whose attached
answer verdict has confidence below 80; and on the trees produced by
`check_quiz_with_llm` — which attaches answer verdicts only to questions
with a non-empty answer — `answerIssues` is at most the number of
questions with a non-empty answer. -/
theorem summary_counts_spec :
    (∀ topics : List AnnTopic,
      (summaryCounts topics).1 = (allQuestions topics).length ∧
      (summaryCounts topics).2.1 = (allQuestions topics).countP hasGrammarIssue ∧
      (summaryCounts topics).2.2 = (allQuestions topics).countP hasAnswerIssue) ∧
    (∀ (gOracle : String → GVerdict)
        (aOracle : String → String → String → AVerdict) (topics : List Topic),
      (summaryCounts (check_quiz_with_llm gOracle aOracle topics)).2.2 ≤
        (allQuestions (check_quiz_with_llm gOracle aOracle topics)).countP
          (fun q => q.answer ≠ "")) := by
  have hcounts : ∀ topics : List AnnTopic,
      summaryCounts topics =
        ((allQuestions topics).length,
          (allQuestions topics).countP hasGrammarIssue,
          (allQuestions topics).countP hasAnswerIssue) := by
    intro topics
    have := summaryCounts_eq topics (0, 0, 0)
    simpa [summaryCounts] using this
  constructor
  · intro topics
    rw [hcounts]
    exact ⟨rfl, rfl, rfl⟩
  · intro gOracle aOracle topics
    rw [hcounts]
    refine List.countP_mono_left ?_
    intro q hq hissue
    have hsome : q.answerCheck.isSome := by
      unfold hasAnswerIssue at hissue
      cases ha : q.answerCheck <;> simp [ha] at hissue ⊢
    have := checkQuiz_answer_attached gOracle aOracle topics q hq hsome
    simpa using this

/-! ## Claim C10: no-error rows collect an identity correction entry -/

theorem collectGo_append (gOracle : String → GVerdict)
    (xs : List (List String)) :
    ∀ (n : Nat) (ys : List (List String)),
      collectGo gOracle n (xs ++ ys) =
        collectGo gOracle n xs ++ collectGo gOracle (n + xs.length) ys := by
  induction xs with
  | nil => intro n ys; simp [collectGo]
  | cons row xs ih =>
    intro n ys
    have harith : n + (xs.length + 1) = (n + 1) + xs.length := by omega
    cases row with
    | nil => simp [collectGo, ih, harith]
    | cons c0 tl =>
      by_cases h : pyStrip c0 = "" <;> simp [collectGo, h, ih, harith]

theorem entryForRow_row (idx : Nat) (qt : String) (g : GVerdict) :
    (entryForRow idx qt g).row = idx := by
  unfold entryForRow
  split_ifs <;> rfl

theorem collectGo_row_bounds (gOracle : String → GVerdict)
    (xs : List (List String)) :
    ∀ n, ∀ e ∈ collectGo gOracle n xs, n ≤ e.row ∧ e.row < n + xs.length := by
  induction xs with
  | nil => intro n e he; simp [collectGo] at he
  | cons row xs ih =>
    intro n e he
    simp only [List.length_cons]
    cases row with
    | nil =>
      have := ih (n + 1) e (by simpa [collectGo] using he)
      omega
    | cons c0 tl =>
      by_cases h : pyStrip c0 = ""
      · have := ih (n + 1) e (by simpa [collectGo, h] using he)
        omega
      · rw [show collectGo gOracle n ((c0 :: tl) :: xs) =
            entryForRow n (pyStrip c0) (gOracle (pyStrip c0))
              :: collectGo gOracle (n + 1) xs by simp [collectGo, h]] at he
        rcases List.mem_cons.mp he with rfl | hmem
        · rw [entryForRow_row]
          omega
        · have := ih (n + 1) e hmem
          omega

/-- Claim C10: for a data row (any row after the header) whose trimmed
first cell is non-empty and whose grammar verdict reports no errors,
`check_grammar_and_collect_corrections` records exactly one entry for that
row — its `corrected` field equals the trimmed original question text and
its `has_errors` field is `false`: the no-error path is an identity on the
question text. -/
theorem grammar_noerror_identity (gOracle : String → GVerdict)
    (pre : List (List String)) (c0 : String) (tl : List String)
    (post : List (List String)) (hpre : 1 ≤ pre.length)
    (hc : pyStrip c0 ≠ "")
    (hg : (gOracle (pyStrip c0)).has_errors = false) :
    (check_grammar_and_collect_corrections (pre ++ (c0 :: tl) :: post)
        gOracle).filter (fun e => e.row = pre.length + 1) =
      [⟨pre.length + 1, pyStrip c0, pyStrip c0,
        (gOracle (pyStrip c0)).confidence, false⟩] := by
  unfold check_grammar_and_collect_corrections
  rw [List.drop_append_of_le_length hpre]
  rw [collectGo_append]
  have hlen : 2 + (pre.drop 1).length = pre.length + 1 := by
    simp [List.length_drop]
    omega
  rw [List.filter_append]
  have hfirst :
      (collectGo gOracle 2 (pre.drop 1)).filter
        (fun e => e.row = pre.length + 1) = [] := by
    rw [List.filter_eq_nil_iff]
    intro e he
    have hb := collectGo_row_bounds gOracle (pre.drop 1) 2 e he
    simp only [List.length_drop] at hb
    simp only [decide_eq_true_eq]
    omega
  rw [hfirst, hlen]
  rw [show collectGo gOracle (pre.length + 1) ((c0 :: tl) :: post) =
      entryForRow (pre.length + 1) (pyStrip c0) (gOracle (pyStrip c0))
        :: collectGo gOracle (pre.length + 1 + 1) post by
    simp [collectGo, hc]]
  rw [List.filter_cons]
  have hentry : entryForRow (pre.length + 1) (pyStrip c0)
      (gOracle (pyStrip c0)) =
      ⟨pre.length + 1, pyStrip c0, pyStrip c0,
        (gOracle (pyStrip c0)).confidence, false⟩ := by
    unfold entryForRow
    rw [hg]
    simp
  have hrest :
      (collectGo gOracle (pre.length + 1 + 1) post).filter
        (fun e => e.row = pre.length + 1) = [] := by
    rw [List.filter_eq_nil_iff]
    intro e he
    have hb := collectGo_row_bounds gOracle post (pre.length + 1 + 1) e he
    simp only [decide_eq_true_eq]
    omega
  rw [hentry, hrest]
  simp

/-- Witness for C10: a two-row table whose single data row gets a clean
verdict. -/
theorem grammar_noerror_identity_witness :
    (check_grammar_and_collect_corrections [["hdr"], ["Kolik je hodin?"]]
        (fun _ => ⟨false, [], 95, none⟩)).filter (fun e => e.row = 2) =
      [⟨2, "Kolik je hodin?", "Kolik je hodin?", 95, false⟩] := by
  have h := grammar_noerror_identity (fun _ => ⟨false, [], 95, none⟩)
    [["hdr"]] "Kolik je hodin?" [] [] (by decide) (by decide) rfl
  simpa using h

/-! ## Claims about the verdict normalizers -/

theorem objGet_objSet_self (kvs : List (String × Json)) (k : String) (v : Json) :
    objGet (objSet kvs k v) k = some v := by
  induction kvs with
  | nil => simp [objSet, objGet]
  | cons kv rest ih =>
    obtain ⟨k', v'⟩ := kv
    by_cases h : k' = k <;> simp [objSet, objGet, h, ih]

theorem objGet_objSet_ne (kvs : List (String × Json)) (k k' : String) (v : Json)
    (h : k ≠ k') : objGet (objSet kvs k v) k' = objGet kvs k' := by
  induction kvs with
  | nil => simp [objSet, objGet, h]
  | cons kv rest ih =>
    obtain ⟨k0, v0⟩ := kv
    by_cases h0 : k0 = k
    · subst h0
      simp [objSet, objGet, h]
    · simp [objSet, objGet, h0, ih]

theorem append_ne_empty_left (a b : String) (ha : a ≠ "") : a ++ b ≠ "" := by
  intro h
  have hlen := congrArg String.length h
  rw [String.length_append] at hlen
  have ha' : a.length ≠ 0 := by
    cases a with
    | mk data =>
      cases data with
      | nil => exact absurd rfl ha
      | cons c cs => simp [String.length]
  simp at hlen
  omega

/-- The parsed payload of the concrete case of claim C3:
`{is_correct: true, confidence: 50, explanation: "ok"}`. -/
def loadsC3 : String → Option Json := fun _ =>
  some (.obj [("is_correct", .bool true), ("confidence", .num 50),
              ("explanation", .str "ok")])

/-- Claim C3, counterexample: on the concrete payload parsing to
`{is_correct: true, confidence: 50, explanation: "ok"}`, the marker text
appended to the explanation is `" (Nízká jistota LLM)"`, not
`" (low model confidence)"` as the claim states. -/
theorem answer_marker_counterexample :
    jGet (check_answer_correctness loadsC3 (.dict (some "resp"))) "explanation" =
        some (.str "ok (Nízká jistota LLM)") ∧
      "ok (Nízká jistota LLM)" ≠ "ok (low model confidence)" :=
  ⟨rfl, by decide⟩

/-- Claim C3 (amended): for every model payload that parses successfully to
an object whose confidence is a number below 80, `check_answer_correctness`
forces `is_correct` to `false`, leaves `confidence` unchanged, and — when
an explanation field exists — appends the marker text
`" (Nízká jistota LLM)"` to it, even when the parsed payload asserted
`is_correct = true`. -/
theorem answer_confidence_floor (loads : String → Option Json)
    (content : String) (kvs : List (String × Json)) (c : Int) (e : String)
    (hcontent : content ≠ "")
    (hload : loads (extractFenced content) = some (.obj kvs))
    (hconf : objGet kvs "confidence" = some (.num c))
    (hc : c < 80)
    (hexp : objGet kvs "explanation" = some (.str e)) :
    jGet (check_answer_correctness loads (.dict (some content))) "is_correct"
        = some (.bool false) ∧
      jGet (check_answer_correctness loads (.dict (some content))) "confidence"
        = some (.num c) ∧
      jGet (check_answer_correctness loads (.dict (some content))) "explanation"
        = some (.str (e ++ " (Nízká jistota LLM)")) := by
  have hfloor : confBelow80 kvs = .ok true := by
    unfold confBelow80
    rw [hconf]
    simp [hc]
  have hexp1 : objGet (objSet kvs "is_correct" (Json.bool false)) "explanation"
      = some (.str e) := by
    rw [objGet_objSet_ne _ _ _ _ (by decide), hexp]
  have hout : check_answer_correctness loads (.dict (some content)) =
      .obj (objSet (objSet kvs "is_correct" (.bool false)) "explanation"
        (.str (e ++ " (Nízká jistota LLM)"))) := by
    unfold check_answer_correctness
    simp only [Option.getD, hcontent, if_false, hload, hfloor, hexp1]
  rw [hout]
  refine ⟨?_, ?_, ?_⟩
  · simp only [jGet]
    rw [objGet_objSet_ne _ _ _ _ (by decide), objGet_objSet_self]
  · simp only [jGet]
    rw [objGet_objSet_ne _ _ _ _ (by decide),
      objGet_objSet_ne _ _ _ _ (by decide), hconf]
  · simp only [jGet]
    rw [objGet_objSet_self]

/-- Witness for the amended theorem of C3 at the concrete payload. -/
theorem answer_confidence_floor_witness :
    (50 : Int) < 80 ∧
      jGet (check_answer_correctness loadsC3 (.dict (some "resp"))) "is_correct"
          = some (.bool false) ∧
        jGet (check_answer_correctness loadsC3 (.dict (some "resp"))) "confidence"
          = some (.num 50) ∧
        jGet (check_answer_correctness loadsC3 (.dict (some "resp"))) "explanation"
          = some (.str ("ok" ++ " (Nízká jistota LLM)")) :=
  ⟨by decide,
   answer_confidence_floor loadsC3 "resp"
     [("is_correct", .bool true), ("confidence", .num 50),
      ("explanation", .str "ok")] 50 "ok"
     (by decide) rfl rfl (by decide) rfl⟩

/-- The malformed payload shapes of claim C4, relative to the behaviour of
the external JSON deserialiser: a non-dict value, a dict without a
`content` key, or content (empty or otherwise) whose extracted fenced text
fails to parse. -/
def malformedFor (loads : String → Option Json) (p : Payload) : Prop :=
  match p with
  | .pyStr _ => True
  | .other => True
  | .dict none => True
  | .dict (some c) => loads (extractFenced c) = none

/-- Claim C4: on every malformed payload shape — a non-dict value (the
error string, whose text is never empty, or any other non-dict), a dict
without content, and empty or unparseable content — both normalizers
return a well-formed verdict with confidence 0 and a populated
error/explanation field, and never propagate a fault:
`check_czech_grammar` returns
`{has_errors: false, corrections: [], confidence: 0, error: <reason>}` and
`check_answer_correctness` returns
`{is_correct: false, confidence: 0, explanation: <diagnostic>}`. -/
theorem normalizers_malformed_safe (loads : String → Option Json) (p : Payload)
    (hmal : malformedFor loads p)
    (hstr : ∀ s, p = .pyStr s → s ≠ "") :
    (∃ r, r ≠ "" ∧ check_czech_grammar loads p =
      .obj [("has_errors", .bool false), ("corrections", .arr []),
            ("confidence", .num 0), ("error", .str r)]) ∧
    (∃ m, m ≠ "" ∧ check_answer_correctness loads p =
      .obj [("is_correct", .bool false), ("confidence", .num 0),
            ("explanation", .str m)]) := by
  cases p with
  | pyStr s =>
    exact ⟨⟨"Invalid response format", by decide, rfl⟩,
           ⟨s, hstr s rfl, rfl⟩⟩
  | other =>
    exact ⟨⟨"Invalid response format", by decide, rfl⟩,
           ⟨"Unexpected response type: <non-dict>", by decide, rfl⟩⟩
  | dict contentOpt =>
    cases contentOpt with
    | none =>
      exact ⟨⟨"Invalid response format", by decide, rfl⟩,
             ⟨"Empty response content", by decide, rfl⟩⟩
    | some content =>
      have hl : loads (extractFenced content) = none := hmal
      constructor
      · refine ⟨"Could not parse LLM response", by decide, ?_⟩
        simp [check_czech_grammar, hl, grammarErr]
      · by_cases hce : content = ""
        · refine ⟨"Empty response content", by decide, ?_⟩
          simp [check_answer_correctness, hce, answerErr]
        · refine ⟨"JSON parse error: <decode error>. Content: "
              ++ pyTake100 (extractFenced content),
            append_ne_empty_left _ _ (by decide), ?_⟩
          simp only [check_answer_correctness, Option.getD, hce, if_false, hl,
            answerErr]

/-- Witness for C4 at a non-dict payload and an always-failing parse. -/
theorem normalizers_malformed_safe_witness :
    malformedFor (fun _ => none) Payload.other ∧
      ((∃ r, r ≠ "" ∧ check_czech_grammar (fun _ => none) Payload.other =
        .obj [("has_errors", .bool false), ("corrections", .arr []),
              ("confidence", .num 0), ("error", .str r)]) ∧
      (∃ m, m ≠ "" ∧ check_answer_correctness (fun _ => none) Payload.other =
        .obj [("is_correct", .bool false), ("confidence", .num 0),
              ("explanation", .str m)])) :=
  ⟨trivial,
   normalizers_malformed_safe (fun _ => none) Payload.other trivial
     (fun _ h => nomatch h)⟩

end PartyQuiz
